import Mathlib

/-!
Verification of the Soul Space blog generator (src/app.py).

The development shallowly embeds the core of the program:
the response parser `parse_response`, the formatter `format_blog_post`,
the session cache (`get_cached_blog_post` / `add_blog_post_to_cache`) and
the orchestrating workflow `run`, together with the topic normalization
performed by `generate_blog_post`.

Python strings are modelled as `List Char`; `str.strip`, `str.split`,
`str.startswith`, `str.lstrip`, `str.replace` and `'\n'.join` are modelled
by executable functions below.  Whitespace is modelled by the ASCII
whitespace set (the inputs of interest are ASCII).  The pydantic model
`YogaBlogPost(**sections)` validates that the three list fields receive
lists; a string value for a list field raises `ValidationError`, which is
modelled by `mkPost` returning `none`.
-/

namespace App

/-- A Python string, modelled as its list of characters. -/
abbrev PyStr := List Char

/-- The characters of a Lean string literal. -/
def chars (s : String) : PyStr := s.data

/-- Python whitespace for `str.strip()` (ASCII subset). -/
def pyWS (c : Char) : Bool :=
  c == ' ' || c == '\t' || c == '\n' || c == '\r' || c == Char.ofNat 11 || c == Char.ofNat 12

/-- Python `line.strip()`: drop whitespace at both ends. -/
def pyStrip (l : PyStr) : PyStr :=
  ((l.dropWhile pyWS).reverse.dropWhile pyWS).reverse

/-- Python `content.split('\n')`: split at every newline, keeping empty pieces. -/
def splitLines : PyStr → List PyStr
  | [] => [[]]
  | c :: rest =>
    if c = '\n' then [] :: splitLines rest
    else
      match splitLines rest with
      | [] => [[c]]
      | h :: t => (c :: h) :: t

/-- Python `'\n'.join(texts)`. -/
def joinNL : List PyStr → PyStr
  | [] => []
  | [x] => x
  | x :: y :: t => x ++ '\n' :: joinNL (y :: t)

/-- Python `line.startswith(pat)`. -/
def startsWith : PyStr → PyStr → Bool
  | [], _ => true
  | _ :: _, [] => false
  | p :: ps, c :: cs => p == c && startsWith ps cs

/-- Python `line.replace('## ', '')`: remove every occurrence of `"## "`,
scanning left to right. -/
def replaceHH : PyStr → PyStr
  | '#' :: '#' :: ' ' :: rest => replaceHH rest
  | c :: rest => c :: replaceHH rest
  | [] => []

/-- The character set of `line.lstrip('- *0123456789. ')`. -/
def markerChar (c : Char) : Bool :=
  c == '-' || c == ' ' || c == '*' || c == '.' || c.isDigit

/-- Python `line.lstrip('- *0123456789. ')`. -/
def lstripMarkers (l : PyStr) : PyStr := l.dropWhile markerChar

/-- The character set of `t.strip('- ')`. -/
def dashSpace (c : Char) : Bool := c == '-' || c == ' '

/-- Python `t.strip('- ')`: drop dashes and spaces at both ends. -/
def stripDashSpace (l : PyStr) : PyStr :=
  ((l.dropWhile dashSpace).reverse.dropWhile dashSpace).reverse

/-- The six body sections of a blog post (the values of `current_section`). -/
inductive SectionName
  | perspective
  | science
  | integration
  | applications
  | takeaways
  | references
deriving DecidableEq

/-- A value stored in the `sections` dict of `parse_response`: either a
string (from a `'\n'.join`) or a list of strings. -/
inductive SecVal
  | strv (v : PyStr)
  | listv (v : List PyStr)
deriving DecidableEq

/-- The `sections` dictionary of `parse_response`. -/
structure Sections where
  title : PyStr
  perspective : SecVal
  science : SecVal
  integration : SecVal
  applications : SecVal
  takeaways : SecVal
  references : SecVal
deriving DecidableEq

/-- `sections[name] = v`. -/
def setSec (s : Sections) : SectionName → SecVal → Sections
  | .perspective, v => { s with perspective := v }
  | .science, v => { s with science := v }
  | .integration, v => { s with integration := v }
  | .applications, v => { s with applications := v }
  | .takeaways, v => { s with takeaways := v }
  | .references, v => { s with references := v }

/-- Read `sections[name]` (used only to state invariants). -/
def getSec (s : Sections) : SectionName → SecVal
  | .perspective => s.perspective
  | .science => s.science
  | .integration => s.integration
  | .applications => s.applications
  | .takeaways => s.takeaways
  | .references => s.references

/-- The initial `sections` dictionary of `parse_response`. -/
def initialSections : Sections :=
  ⟨[], .strv [], .strv [], .strv [], .listv [], .listv [], .listv []⟩

/-- The loop state of `parse_response`. -/
structure ParseState where
  sections : Sections
  current_section : Option SectionName
  current_text : List PyStr
deriving DecidableEq

/-- The initial loop state of `parse_response`. -/
def initialState : ParseState := ⟨initialSections, none, []⟩

/-- The flush performed by the first four sub-heading branches:
`if current_section and current_text: sections[current_section] = '\n'.join(current_text)`. -/
def flushJoin (st : ParseState) : Sections :=
  match st.current_section, st.current_text with
  | some cs, t :: ts => setSec st.sections cs (.strv (joinNL (t :: ts)))
  | _, _ => st.sections

/-- Whether `current_section in ['applications', 'takeaways', 'references']`. -/
def isListSection : Option SectionName → Bool
  | some .applications => true
  | some .takeaways => true
  | some .references => true
  | _ => false

/-- Python `line[0].isdigit()` (the loop guarantees `line` is nonempty). -/
def headDigit : PyStr → Bool
  | c :: _ => c.isDigit
  | [] => false

/-- The list flush `[t.strip('- ') for t in current_text if t.strip('- ')]`. -/
def listFlush (buf : List PyStr) : List PyStr :=
  (buf.map stripDashSpace).filter (fun t => !t.isEmpty)

/-- One iteration of the `for line in content.split('\n')` loop of
`parse_response`, with the branches in the order of the source. -/
def processLine (st : ParseState) (rawLine : PyStr) : ParseState :=
  let line := pyStrip rawLine
  if line.isEmpty then st
  else if startsWith (chars "## ") line then
    { st with sections := { st.sections with title := replaceHH line } }
  else if startsWith (chars "### The Soul Space Perspective") line then
    { sections := flushJoin st, current_section := some .perspective, current_text := [] }
  else if startsWith (chars "### Understanding the Science") line then
    { sections := flushJoin st, current_section := some .science, current_text := [] }
  else if startsWith (chars "### Traditional Wisdom") line then
    { sections := flushJoin st, current_section := some .integration, current_text := [] }
  else if startsWith (chars "### Practical Applications") line then
    { sections := flushJoin st, current_section := some .applications, current_text := [] }
  else if startsWith (chars "### Key Takeaways") line then
    { sections :=
        if st.current_section = some .applications then
          setSec st.sections .applications (.listv (listFlush st.current_text))
        else st.sections,
      current_section := some .takeaways, current_text := [] }
  else if startsWith (chars "### Scientific References") line then
    { sections :=
        if st.current_section = some .takeaways then
          setSec st.sections .takeaways (.listv (listFlush st.current_text))
        else st.sections,
      current_section := some .references, current_text := [] }
  else if startsWith (chars "Namaste,") line then st
  else if isListSection st.current_section then
    if startsWith (chars "- ") line || startsWith (chars "* ") line || headDigit line then
      { st with current_text := st.current_text ++ [lstripMarkers line] }
    else st
  else
    { st with current_text := st.current_text ++ [line] }

/-- The code after the loop:
`if current_section == 'references' and current_text: sections['references'] = [t for t in current_text if t]`. -/
def handleLast (st : ParseState) : Sections :=
  if st.current_section = some .references then
    match st.current_text with
    | [] => st.sections
    | t :: ts =>
      setSec st.sections .references (.listv ((t :: ts).filter (fun x => !x.isEmpty)))
  else st.sections

/-- Python truthiness of a `sections` value. -/
def truthy : SecVal → Bool
  | .strv v => !v.isEmpty
  | .listv v => !v.isEmpty

/-- `v if v else default`. -/
def normV (dflt : SecVal) (v : SecVal) : SecVal :=
  if truthy v then v else dflt

/-- The dict comprehension that replaces falsy values with `''` or `[]`. -/
def normalizeSections (s : Sections) : Sections :=
  ⟨if s.title.isEmpty then [] else s.title,
   normV (.strv []) s.perspective,
   normV (.strv []) s.science,
   normV (.strv []) s.integration,
   normV (.listv []) s.applications,
   normV (.listv []) s.takeaways,
   normV (.listv []) s.references⟩

/-- The structured blog post (the pydantic model `YogaBlogPost`). -/
structure YogaBlogPost where
  title : PyStr
  perspective : PyStr
  science : PyStr
  integration : PyStr
  applications : List PyStr
  takeaways : List PyStr
  references : List PyStr
deriving DecidableEq

/-- `YogaBlogPost(**sections)`: pydantic accepts the record only when every
field has the declared type; a string in one of the three list-typed fields
raises `ValidationError`, modelled by `none`. -/
def mkPost (s : Sections) : Option YogaBlogPost :=
  match s.perspective, s.science, s.integration, s.applications, s.takeaways, s.references with
  | .strv p, .strv sc, .strv ig, .listv a, .listv t, .listv r =>
    some ⟨s.title, p, sc, ig, a, t, r⟩
  | _, _, _, _, _, _ => none

/-- `parse_response` on an already split list of lines. -/
def parseLines (lines : List PyStr) : Option YogaBlogPost :=
  mkPost (normalizeSections (handleLast (lines.foldl processLine initialState)))

/-- `YogaBlogGenerator.parse_response`: split the raw text into lines, run the
state machine, flush a final references section, normalize empty values and
build the record.  `none` models a raised `ValidationError`. -/
def parse_response (content : PyStr) : Option YogaBlogPost :=
  parseLines (splitLines content)

example : parse_response (chars "") =
    some ⟨[], [], [], [], [], [], []⟩ := by rfl

example : parse_response
    (chars "## T\n### The Soul Space Perspective\nhi there\nmore\n### Understanding the Science\nsci") =
    some ⟨chars "T", chars "hi there\nmore", [], [], [], [], []⟩ := by
  rfl

example : parse_response (chars "## T\n### The Soul Space Perspective\nhi there") =
    some ⟨chars "T", [], [], [], [], [], []⟩ := by rfl

example : parse_response (chars "### Scientific References\n1. Smith 2020") =
    some ⟨[], [], [], [], [], [], [chars "Smith 2020"]⟩ := by rfl

example : parse_response (chars "### Practical Applications\n- tip\n### Understanding the Science") =
    none := by rfl

/-- One decimal digit as a character (`0 ≤ n ≤ 9` in every use). -/
def digitChar : Nat → Char
  | 0 => '0' | 1 => '1' | 2 => '2' | 3 => '3' | 4 => '4'
  | 5 => '5' | 6 => '6' | 7 => '7' | 8 => '8' | _ => '9'

/-- Fuel-driven decimal rendering; `fuel > n` always suffices because the
argument is divided by ten at every step. -/
def natCharsAux : Nat → Nat → PyStr
  | 0, _ => []
  | fuel + 1, n =>
    if n < 10 then [digitChar n]
    else natCharsAux fuel (n / 10) ++ [digitChar (n % 10)]

/-- The decimal rendering of a natural number, as produced by the f-string
`f"{i+1}. {ref}"`. -/
def natChars (n : Nat) : PyStr := natCharsAux (n + 1) n

/-- `YogaBlogGenerator.format_blog_post`: the f-string of the source, written
with its newlines explicit.  The original is
`"## {title}\n\n### The Soul Space Perspective\n{perspective}\n\n### Understanding the Science\n{science}\n\n### Traditional Wisdom Meets Modern Research\n{integration}\n\n### Practical Applications\n{bullets}\n\n### Key Takeaways\n{bullets}\n\n### Scientific References\n{numbered}\n\nNamaste,\nJen Patel\nFounder, Soul Space"`
where bullets are `"- {tip}"` joined by newlines and the references are
`f"{i+1}. {ref}"` joined by newlines. -/
def format_blog_post (blog : YogaBlogPost) : PyStr :=
  (chars "## " ++ blog.title) ++ '\n' ::
  ([] ++ '\n' ::
  (chars "### The Soul Space Perspective" ++ '\n' ::
  (blog.perspective ++ '\n' ::
  ([] ++ '\n' ::
  (chars "### Understanding the Science" ++ '\n' ::
  (blog.science ++ '\n' ::
  ([] ++ '\n' ::
  (chars "### Traditional Wisdom Meets Modern Research" ++ '\n' ::
  (blog.integration ++ '\n' ::
  ([] ++ '\n' ::
  (chars "### Practical Applications" ++ '\n' ::
  (joinNL (blog.applications.map (fun tip => chars "- " ++ tip)) ++ '\n' ::
  ([] ++ '\n' ::
  (chars "### Key Takeaways" ++ '\n' ::
  (joinNL (blog.takeaways.map (fun takeaway => chars "- " ++ takeaway)) ++ '\n' ::
  ([] ++ '\n' ::
  (chars "### Scientific References" ++ '\n' ::
  (joinNL ((blog.references.enum).map (fun p => natChars (p.1 + 1) ++ chars ". " ++ p.2)) ++ '\n' ::
  ([] ++ '\n' ::
  (chars "Namaste," ++ '\n' ::
  (chars "Jen Patel" ++ '\n' ::
  chars "Founder, Soul Space")))))))))))))))))))))

set_option maxRecDepth 8192

example : format_blog_post ⟨chars "T", chars "p", chars "s", chars "i",
    [chars "a1", chars "a2"], [chars "k"], [chars "r1", chars "r2"]⟩ =
    chars "## T\n\n### The Soul Space Perspective\np\n\n### Understanding the Science\ns\n\n### Traditional Wisdom Meets Modern Research\ni\n\n### Practical Applications\n- a1\n- a2\n\n### Key Takeaways\n- k\n\n### Scientific References\n1. r1\n2. r2\n\nNamaste,\nJen Patel\nFounder, Soul Space" := by
  rfl

/-!
## Cache and orchestrator

The session cache `session_state["yoga_blogs"]` is a Python dict from topic
strings to formatted documents; it is modelled as an association list where
an update prepends (lookup finds the newest binding, i.e. last-write-wins).
-/

/-- The `yoga_blogs` dict of the session state. -/
abbrev Cache := List (PyStr × PyStr)

/-- Dict lookup `d.get(topic)`. -/
def dictGet : Cache → PyStr → Option PyStr
  | [], _ => none
  | (k, v) :: rest, topic => if k = topic then some v else dictGet rest topic

/-- Dict update `d[topic] = post` (lookup-equivalent model: prepend). -/
def dictInsert (d : Cache) (topic post : PyStr) : Cache := (topic, post) :: d

/-- `YogaBlogGenerator.get_cached_blog_post`: raw-key lookup in the dict. -/
def get_cached_blog_post (cache : Cache) (topic : PyStr) : Option PyStr :=
  dictGet cache topic

/-- `YogaBlogGenerator.add_blog_post_to_cache`: raw-key upsert in the dict. -/
def add_blog_post_to_cache (cache : Cache) (topic blog_post : PyStr) : Cache :=
  dictInsert cache topic blog_post

/-- Behaviour of the external generation collaborator `self.writer.run(prompt)`
for one call: it returns a response with a text payload, returns no usable
response (a falsy response or falsy content), or raises an exception whose
text is `msg`. -/
inductive GenBehavior
  | ok (content : PyStr)
  | retNone
  | raise (msg : PyStr)

/-- The text yielded by one `run` call.  `validationError` stands for the
`f"Error: {str(e)}"` message produced when `parse_response` raises a pydantic
`ValidationError` (its text comes from pydantic internals, not from app.py). -/
inductive RunContent
  | text (s : PyStr)
  | validationError
deriving DecidableEq

/-- Which branch of `run` produced the yielded response (ghost information
used to state the cache properties). -/
inductive Branch
  | cacheHit
  | genSuccess
  | genEmpty
  | genError
  | parseError
deriving DecidableEq

/-- The observable outcome of one `run` call: the yielded content, the cache
afterwards, and ghost counters for the collaborator / parser / formatter
invocations performed during the call. -/
structure RunResult where
  content : RunContent
  cache : Cache
  genCalls : Nat
  parseCalls : Nat
  formatCalls : Nat
  branch : Branch
deriving DecidableEq

/-- The part of `YogaBlogGenerator.run` after the cache check: invoke the
writer once inside `try`, and on a truthy response with truthy content parse,
format, write the cache and yield; on a falsy response/content yield the
"Failed to generate" message; on an exception yield `f"Error: {str(e)}"`. -/
def runGen (cache : Cache) (topic : PyStr) (gen : GenBehavior) : RunResult :=
  match gen with
  | .raise msg =>
    ⟨.text (chars "Error: " ++ msg), cache, 1, 0, 0, .genError⟩
  | .retNone =>
    ⟨.text (chars "Failed to generate blog post about: " ++ topic), cache, 1, 0, 0, .genEmpty⟩
  | .ok c =>
    if c.isEmpty then
      ⟨.text (chars "Failed to generate blog post about: " ++ topic), cache, 1, 0, 0, .genEmpty⟩
    else
      match parse_response c with
      | some blog =>
        let formatted := format_blog_post blog
        ⟨.text formatted, add_blog_post_to_cache cache topic formatted, 1, 1, 1, .genSuccess⟩
      | none =>
        ⟨.validationError, cache, 1, 1, 0, .parseError⟩

/-- `YogaBlogGenerator.run`: on `use_cache`, a truthy cached post is yielded
immediately; otherwise (or on a falsy cached value) the generation path runs. -/
def run (cache : Cache) (topic : PyStr) (use_cache : Bool) (gen : GenBehavior) : RunResult :=
  if use_cache then
    match get_cached_blog_post cache topic with
    | some cached_post =>
      if cached_post.isEmpty then runGen cache topic gen
      else ⟨.text cached_post, cache, 0, 0, 0, .cacheHit⟩
    | none => runGen cache topic gen
  else runGen cache topic gen

/-- Python `c.lower()` on one character (ASCII model: each uppercase
letter maps to its lowercase form, every other character is unchanged). -/
def pyLower (c : Char) : Char :=
  if c = 'A' then 'a' else if c = 'B' then 'b' else if c = 'C' then 'c' else if c = 'D' then 'd' else if c = 'E' then 'e' else if c = 'F' then 'f' else if c = 'G' then 'g' else if c = 'H' then 'h' else if c = 'I' then 'i' else if c = 'J' then 'j' else if c = 'K' then 'k' else if c = 'L' then 'l' else if c = 'M' then 'm' else if c = 'N' then 'n' else if c = 'O' then 'o' else if c = 'P' then 'p' else if c = 'Q' then 'q' else if c = 'R' then 'r' else if c = 'S' then 's' else if c = 'T' then 't' else if c = 'U' then 'u' else if c = 'V' then 'v' else if c = 'W' then 'w' else if c = 'X' then 'x' else if c = 'Y' then 'y' else if c = 'Z' then 'z' else c

/-- The topic normalization of `generate_blog_post`:
`topic.lower().replace(" ", "-")` (used only for the session id). -/
def url_safe_topic (topic : PyStr) : PyStr :=
  (topic.map pyLower).map (fun c => if c = ' ' then '-' else c)

example : url_safe_topic (chars "Yoga  For Sleep") = chars "yoga--for-sleep" := by rfl

/-- A generation outcome with no usable content: an exception, a falsy
response, or a response whose text payload is empty. -/
def genFails : GenBehavior → Prop
  | .ok c => c = []
  | .retNone => True
  | .raise _ => True

/-- The failure message `run` yields for a failing generation outcome. -/
def failContent (topic : PyStr) : GenBehavior → RunContent
  | .raise m => .text (chars "Error: " ++ m)
  | _ => .text (chars "Failed to generate blog post about: " ++ topic)

/-!
## Well-formedness for the round-trip property

A formatted record re-parses to itself when its field values survive the
parser's line handling: lines of free-text fields must be non-blank, already
stripped, and must not start with a recognized heading or the sign-off
marker; list items must be nonempty single lines with no leading list-marker
characters (which `lstrip('- *0123456789. ')` would eat), no trailing
whitespace, and no surrounding dashes/spaces (which `strip('- ')` would eat);
the title must not end in whitespace nor contain `"## "` or a newline.
-/

/-- A line of a free-text section that the parser accumulates verbatim. -/
def goodTextLine (l : PyStr) : Prop :=
  l ≠ [] ∧ '\n' ∉ l ∧ pyStrip l = l ∧
  startsWith (chars "## ") l = false ∧
  startsWith (chars "### The Soul Space Perspective") l = false ∧
  startsWith (chars "### Understanding the Science") l = false ∧
  startsWith (chars "### Traditional Wisdom") l = false ∧
  startsWith (chars "### Practical Applications") l = false ∧
  startsWith (chars "### Key Takeaways") l = false ∧
  startsWith (chars "### Scientific References") l = false ∧
  startsWith (chars "Namaste,") l = false

instance (l : PyStr) : Decidable (goodTextLine l) := by
  unfold goodTextLine; exact inferInstance

/-- A well-formed free-text field: empty, or made of good lines. -/
def wfText (f : PyStr) : Prop :=
  f = [] ∨ ∀ l ∈ splitLines f, goodTextLine l

instance (f : PyStr) : Decidable (wfText f) := by
  unfold wfText; exact inferInstance

/-- A well-formed list item. -/
def goodItem (x : PyStr) : Prop :=
  x ≠ [] ∧ '\n' ∉ x ∧
  x.reverse.dropWhile pyWS = x.reverse ∧
  x.dropWhile markerChar = x ∧
  stripDashSpace x = x

instance (x : PyStr) : Decidable (goodItem x) := by
  unfold goodItem; exact inferInstance

/-- A well-formed title. -/
def wfTitle (t : PyStr) : Prop :=
  t = [] ∨ ('\n' ∉ t ∧ t.reverse.dropWhile pyWS = t.reverse ∧ replaceHH t = t)

instance (t : PyStr) : Decidable (wfTitle t) := by
  unfold wfTitle; exact inferInstance

/-- A record whose field values survive the parser's line handling. -/
def wfRecord (r : YogaBlogPost) : Prop :=
  wfTitle r.title ∧ wfText r.perspective ∧ wfText r.science ∧ wfText r.integration ∧
  (∀ x ∈ r.applications, goodItem x) ∧
  (∀ x ∈ r.takeaways, goodItem x) ∧
  (∀ x ∈ r.references, goodItem x)

instance (r : YogaBlogPost) : Decidable (wfRecord r) := by
  unfold wfRecord; exact inferInstance

/-- The bullet lines `f"- {tip}"` of a list section. -/
def bulletLines (items : List PyStr) : List PyStr :=
  items.map (fun tip => chars "- " ++ tip)

/-- The numbered lines `f"{i+1}. {ref}"` of the references section. -/
def refLines (refs : List PyStr) : List PyStr :=
  (refs.enum).map (fun p => natChars (p.1 + 1) ++ chars ". " ++ p.2)

/-- The line decomposition of `format_blog_post`. -/
def formatLines (b : YogaBlogPost) : List PyStr :=
  splitLines (chars "## " ++ b.title) ++ [[]] ++
  [chars "### The Soul Space Perspective"] ++ splitLines b.perspective ++ [[]] ++
  [chars "### Understanding the Science"] ++ splitLines b.science ++ [[]] ++
  [chars "### Traditional Wisdom Meets Modern Research"] ++ splitLines b.integration ++ [[]] ++
  [chars "### Practical Applications"] ++ splitLines (joinNL (bulletLines b.applications)) ++ [[]] ++
  [chars "### Key Takeaways"] ++ splitLines (joinNL (bulletLines b.takeaways)) ++ [[]] ++
  [chars "### Scientific References"] ++ splitLines (joinNL (refLines b.references)) ++ [[]] ++
  [chars "Namaste,"] ++ [chars "Jen Patel"] ++ [chars "Founder, Soul Space"]

/-!
## Helper lemmas
-/

theorem startsWith_false_of_head_ne (p c : Char) (ps cs : PyStr) (h : (p == c) = false) :
    startsWith (p :: ps) (c :: cs) = false := by
  unfold startsWith; rw [h, Bool.false_and]

theorem startsWith_true_iff : ∀ (p l : PyStr), startsWith p l = true ↔ ∃ t, l = p ++ t
  | [], l => by simp [startsWith]
  | p :: ps, [] => by simp [startsWith]
  | p :: ps, c :: cs => by
    unfold startsWith
    rw [Bool.and_eq_true, beq_iff_eq, startsWith_true_iff ps cs]
    constructor
    · rintro ⟨rfl, t, rfl⟩; exact ⟨t, rfl⟩
    · rintro ⟨t, ht⟩
      injection ht with h1 h2
      exact ⟨h1.symm, t, h2⟩

theorem beq_false_of_isDigit (c w : Char) (h : c.isDigit = true) (hw : w.isDigit = false) :
    (c == w) = false := by
  rw [beq_eq_false_iff_ne]
  rintro rfl
  rw [h] at hw
  exact Bool.noConfusion hw

theorem pyWS_false_of_isDigit (c : Char) (h : c.isDigit = true) : pyWS c = false := by
  unfold pyWS
  rw [beq_false_of_isDigit c ' ' h (by decide), beq_false_of_isDigit c '\t' h (by decide),
    beq_false_of_isDigit c '\n' h (by decide), beq_false_of_isDigit c '\r' h (by decide),
    beq_false_of_isDigit c (Char.ofNat 11) h (by decide),
    beq_false_of_isDigit c (Char.ofNat 12) h (by decide)]
  rfl

theorem head_pred_false_of_dropWhile_eq (p : Char → Bool) (c : Char) (t : PyStr)
    (h : (c :: t).dropWhile p = c :: t) : p c = false := by
  by_contra hp
  rw [Bool.not_eq_false] at hp
  rw [List.dropWhile_cons_of_pos hp] at h
  have hlen := congrArg List.length h
  have := (List.dropWhile_sublist p (l := t)).length_le
  simp only [List.length_cons] at hlen
  omega

theorem revdrop_append (x suf : PyStr) (hx : x ≠ [])
    (h : x.reverse.dropWhile pyWS = x.reverse) :
    (suf ++ x).reverse.dropWhile pyWS = (suf ++ x).reverse := by
  rw [List.reverse_append]
  cases hxr : x.reverse with
  | nil => exact absurd (List.reverse_eq_nil_iff.mp hxr) hx
  | cons d ds =>
    rw [hxr] at h
    have hd : pyWS d = false := head_pred_false_of_dropWhile_eq pyWS d ds h
    rw [List.cons_append, List.dropWhile_cons_of_neg (by rw [hd]; exact Bool.false_ne_true)]

theorem pyStrip_of_parts (l : PyStr) (c : Char) (t : PyStr) (hl : l = c :: t)
    (hc : pyWS c = false) (hr : l.reverse.dropWhile pyWS = l.reverse) : pyStrip l = l := by
  subst hl
  unfold pyStrip
  rw [List.dropWhile_cons_of_neg (by rw [hc]; exact Bool.false_ne_true), hr,
    List.reverse_reverse]

theorem splitLines_ne_nil (l : PyStr) : splitLines l ≠ [] := by
  cases l with
  | nil => simp [splitLines]
  | cons c t =>
    unfold splitLines
    split
    · exact List.cons_ne_nil _ _
    · split <;> exact List.cons_ne_nil _ _

theorem splitLines_cons_nl (t : PyStr) : splitLines ('\n' :: t) = [] :: splitLines t := by
  conv_lhs => unfold splitLines
  rw [if_pos rfl]

theorem splitLines_cons_of_ne (c : Char) (t : PyStr) (hc : c ≠ '\n') :
    splitLines (c :: t) =
      match splitLines t with
      | [] => [[c]]
      | h :: tl => (c :: h) :: tl := by
  conv_lhs => unfold splitLines
  rw [if_neg hc]

theorem splitLines_append (a b : PyStr) :
    splitLines (a ++ '\n' :: b) = splitLines a ++ splitLines b := by
  induction a with
  | nil =>
    rw [List.nil_append, splitLines_cons_nl]
    rfl
  | cons c t ih =>
    rw [List.cons_append]
    by_cases hc : c = '\n'
    · subst hc
      rw [splitLines_cons_nl, splitLines_cons_nl, ih, List.cons_append]
    · rw [splitLines_cons_of_ne c (t ++ '\n' :: b) hc, splitLines_cons_of_ne c t hc, ih]
      cases hs : splitLines t with
      | nil => exact absurd hs (splitLines_ne_nil t)
      | cons h tl =>
        rfl

theorem splitLines_no_nl (l : PyStr) (h : '\n' ∉ l) : splitLines l = [l] := by
  induction l with
  | nil => rfl
  | cons c t ih =>
    simp only [List.mem_cons, not_or] at h
    rw [splitLines_cons_of_ne c t (fun e => h.1 e.symm), ih h.2]

theorem joinNL_splitLines (l : PyStr) : joinNL (splitLines l) = l := by
  induction l with
  | nil => rfl
  | cons c t ih =>
    by_cases hc : c = '\n'
    · subst hc
      rw [splitLines_cons_nl]
      cases hs : splitLines t with
      | nil => exact absurd hs (splitLines_ne_nil t)
      | cons h tl =>
        rw [hs] at ih
        simpa [joinNL] using ih
    · rw [splitLines_cons_of_ne c t hc]
      cases hs : splitLines t with
      | nil => exact absurd hs (splitLines_ne_nil t)
      | cons h tl =>
        rw [hs] at ih
        cases tl with
        | nil => simpa [joinNL] using congrArg (c :: ·) ih
        | cons h2 t2 => simpa [joinNL] using congrArg (c :: ·) ih

theorem splitLines_joinNL (L : List PyStr) (hne : L ≠ []) (h : ∀ l ∈ L, '\n' ∉ l) :
    splitLines (joinNL L) = L := by
  induction L with
  | nil => exact absurd rfl hne
  | cons x xs ih =>
    cases xs with
    | nil => exact splitLines_no_nl x (h x (List.mem_cons_self x []))
    | cons y ys =>
      have hx : '\n' ∉ x := h x (List.mem_cons_self _ _)
      have : joinNL (x :: y :: ys) = x ++ '\n' :: joinNL (y :: ys) := rfl
      rw [this, splitLines_append, splitLines_no_nl x hx,
        ih (List.cons_ne_nil _ _) (fun l hl => h l (List.mem_cons_of_mem _ hl))]
      rfl


/-!
## Orchestrator lemmas
-/

theorem format_blog_post_isEmpty (b : YogaBlogPost) :
    (format_blog_post b).isEmpty = false := by
  unfold format_blog_post
  rw [show chars "## " = '#' :: chars "# " from rfl]
  rw [List.cons_append, List.cons_append]
  rfl

theorem dictGet_insert_self (d : Cache) (k v : PyStr) :
    dictGet (dictInsert d k v) k = some v := by
  unfold dictInsert dictGet
  rw [if_pos rfl]

theorem dictGet_insert_other (d : Cache) (k k' v : PyStr) (h : k ≠ k') :
    dictGet (dictInsert d k v) k' = dictGet d k' := by
  show (if k = k' then some v else dictGet d k') = dictGet d k'
  rw [if_neg h]

theorem runGen_genCalls (cache : Cache) (topic : PyStr) (gen : GenBehavior) :
    (runGen cache topic gen).genCalls = 1 := by
  cases gen with
  | raise m => rfl
  | retNone => rfl
  | ok c =>
    by_cases hc : c.isEmpty = true
    · simp [runGen, hc]
    · cases hp : parse_response c with
      | some blog => simp [runGen, hc, hp]
      | none => simp [runGen, hc, hp]

theorem runGen_branch_ne_cacheHit (cache : Cache) (topic : PyStr) (gen : GenBehavior) :
    (runGen cache topic gen).branch ≠ .cacheHit := by
  cases gen with
  | raise m => simp [runGen]
  | retNone => simp [runGen]
  | ok c =>
    by_cases hc : c.isEmpty = true
    · simp [runGen, hc]
    · cases hp : parse_response c with
      | some blog => simp [runGen, hc, hp]
      | none => simp [runGen, hc, hp]

theorem runGen_success_spec (cache : Cache) (topic : PyStr) (gen : GenBehavior)
    (h : (runGen cache topic gen).branch = .genSuccess) :
    ∃ d, runGen cache topic gen =
        ⟨.text d, add_blog_post_to_cache cache topic d, 1, 1, 1, .genSuccess⟩ ∧
      d.isEmpty = false := by
  cases gen with
  | raise m => simp [runGen] at h
  | retNone => simp [runGen] at h
  | ok c =>
    by_cases hc : c.isEmpty = true
    · simp [runGen, hc] at h
    · cases hp : parse_response c with
      | none => simp [runGen, hc, hp] at h
      | some blog =>
        refine ⟨format_blog_post blog, ?_, format_blog_post_isEmpty blog⟩
        simp [runGen, hc, hp]

theorem run_hit_of_cached (cache : Cache) (topic : PyStr) (gen : GenBehavior) (d : PyStr)
    (hget : get_cached_blog_post cache topic = some d) (hd : d.isEmpty = false) :
    run cache topic true gen = ⟨.text d, cache, 0, 0, 0, .cacheHit⟩ := by
  simp [run, hget, hd]

theorem run_miss (cache : Cache) (topic : PyStr) (gen : GenBehavior)
    (h : get_cached_blog_post cache topic = none ∨ get_cached_blog_post cache topic = some []) :
    run cache topic true gen = runGen cache topic gen := by
  rcases h with h | h
  · simp [run, h]
  · simp [run, h]

theorem run_second_call_eq (cache : Cache) (topic : PyStr) (gen1 gen2 : GenBehavior)
    (h : (run cache topic true gen1).branch = .cacheHit ∨
      (run cache topic true gen1).branch = .genSuccess) :
    run (run cache topic true gen1).cache topic true gen2 =
      ⟨(run cache topic true gen1).content, (run cache topic true gen1).cache, 0, 0, 0,
        .cacheHit⟩ := by
  have after_gen : ∀ _hg : run cache topic true gen1 = runGen cache topic gen1,
      run (run cache topic true gen1).cache topic true gen2 =
        ⟨(run cache topic true gen1).content, (run cache topic true gen1).cache, 0, 0, 0,
          .cacheHit⟩ := by
    intro hg
    rw [hg] at h ⊢
    have hs : (runGen cache topic gen1).branch = .genSuccess := by
      rcases h with h | h
      · exact absurd h (runGen_branch_ne_cacheHit _ _ _)
      · exact h
    obtain ⟨d, hre, hd⟩ := runGen_success_spec _ _ _ hs
    rw [hre]
    exact run_hit_of_cached _ _ _ d (dictGet_insert_self _ _ _) hd
  cases hget : get_cached_blog_post cache topic with
  | none => exact after_gen (run_miss _ _ _ (Or.inl hget))
  | some p =>
    by_cases hp : p.isEmpty = true
    · have hnil : p = [] := List.isEmpty_iff.mp hp
      subst hnil
      exact after_gen (run_miss _ _ _ (Or.inr hget))
    · rw [Bool.not_eq_true] at hp
      have h1 : run cache topic true gen1 = ⟨.text p, cache, 0, 0, 0, .cacheHit⟩ :=
        run_hit_of_cached _ _ _ p hget hp
      rw [h1]
      exact run_hit_of_cached _ _ _ p hget hp

/-!
## Claims C1, C5, C6, C7, C9
-/

/-- C1: the spec requires `parse_response` to be a total function that never
raises.  The code violates this: on the input below the applications buffer
is flushed by `'\n'.join` into the list-typed `applications` field, and
`YogaBlogPost(**sections)` raises a pydantic `ValidationError` (modelled by
`none`). -/
theorem parse_response_raises_on_join_flush :
    parse_response
      (chars "### Practical Applications\n- tip\n### Understanding the Science") = none := by
  rfl

/-- C5: after a first `run(topic, use_cache=True)` call that returned a
document (a cache hit or a successful generation), a second call with
`use_cache=True` returns the identical content as a cache hit, with zero
collaborator invocations and without invoking the parser or the formatter —
whatever the collaborator would do on the second call. -/
theorem cache_idempotent_second_call (cache : Cache) (topic : PyStr)
    (gen1 gen2 : GenBehavior)
    (h : (run cache topic true gen1).branch = .cacheHit ∨
      (run cache topic true gen1).branch = .genSuccess) :
    (run (run cache topic true gen1).cache topic true gen2).content =
      (run cache topic true gen1).content ∧
    (run (run cache topic true gen1).cache topic true gen2).genCalls = 0 ∧
    (run (run cache topic true gen1).cache topic true gen2).parseCalls = 0 ∧
    (run (run cache topic true gen1).cache topic true gen2).formatCalls = 0 ∧
    (run (run cache topic true gen1).cache topic true gen2).branch = .cacheHit := by
  rw [run_second_call_eq cache topic gen1 gen2 h]
  exact ⟨rfl, rfl, rfl, rfl, rfl⟩

/-- C5 witness: empty cache, topic "yoga", a successful generation on the
first call and a raising collaborator on the second. -/
theorem cache_idempotent_second_call_witness :
    ((run [] (chars "yoga") true (.ok (chars "## T"))).branch = .cacheHit ∨
      (run [] (chars "yoga") true (.ok (chars "## T"))).branch = .genSuccess) ∧
    ((run (run [] (chars "yoga") true (.ok (chars "## T"))).cache (chars "yoga") true
        (.raise (chars "boom"))).content =
      (run [] (chars "yoga") true (.ok (chars "## T"))).content ∧
    (run (run [] (chars "yoga") true (.ok (chars "## T"))).cache (chars "yoga") true
        (.raise (chars "boom"))).genCalls = 0 ∧
    (run (run [] (chars "yoga") true (.ok (chars "## T"))).cache (chars "yoga") true
        (.raise (chars "boom"))).parseCalls = 0 ∧
    (run (run [] (chars "yoga") true (.ok (chars "## T"))).cache (chars "yoga") true
        (.raise (chars "boom"))).formatCalls = 0 ∧
    (run (run [] (chars "yoga") true (.ok (chars "## T"))).cache (chars "yoga") true
        (.raise (chars "boom"))).branch = .cacheHit) :=
  ⟨Or.inr rfl,
    cache_idempotent_second_call [] (chars "yoga") (.ok (chars "## T"))
      (.raise (chars "boom")) (Or.inr rfl)⟩


/-- C6: a call with `use_cache=False` and a successful generation still
writes the formatted document through to the cache: a following call with
`use_cache=True` returns that same document as a cache hit with zero
collaborator invocations. -/
theorem cache_bypass_still_writes (cache : Cache) (topic c : PyStr)
    (blog : YogaBlogPost) (gen2 : GenBehavior)
    (hc : c.isEmpty = false) (hp : parse_response c = some blog) :
    (run cache topic false (.ok c)).content = .text (format_blog_post blog) ∧
    (run cache topic false (.ok c)).genCalls = 1 ∧
    run (run cache topic false (.ok c)).cache topic true gen2 =
      ⟨.text (format_blog_post blog), (run cache topic false (.ok c)).cache, 0, 0, 0,
        .cacheHit⟩ := by
  have h1 : run cache topic false (.ok c) =
      ⟨.text (format_blog_post blog),
        add_blog_post_to_cache cache topic (format_blog_post blog), 1, 1, 1, .genSuccess⟩ := by
    show runGen cache topic (.ok c) = _
    simp [runGen, hc, hp]
  rw [h1]
  exact ⟨rfl, rfl,
    run_hit_of_cached _ _ _ _ (dictGet_insert_self _ _ _) (format_blog_post_isEmpty blog)⟩

/-- C6 witness: empty cache, topic "yoga", response "## T", then a cached
second call. -/
theorem cache_bypass_still_writes_witness :
    (chars "## T").isEmpty = false ∧
    parse_response (chars "## T") = some ⟨chars "T", [], [], [], [], [], []⟩ ∧
    ((run [] (chars "yoga") false (.ok (chars "## T"))).content =
      .text (format_blog_post ⟨chars "T", [], [], [], [], [], []⟩) ∧
    (run [] (chars "yoga") false (.ok (chars "## T"))).genCalls = 1 ∧
    run (run [] (chars "yoga") false (.ok (chars "## T"))).cache (chars "yoga") true
        (.raise (chars "down")) =
      ⟨.text (format_blog_post ⟨chars "T", [], [], [], [], [], []⟩),
        (run [] (chars "yoga") false (.ok (chars "## T"))).cache, 0, 0, 0, .cacheHit⟩) :=
  ⟨rfl, rfl,
    cache_bypass_still_writes [] (chars "yoga") (chars "## T")
      ⟨chars "T", [], [], [], [], [], []⟩ (.raise (chars "down")) rfl rfl⟩

/-- C7: when the collaborator raises, returns no usable response, or returns
empty content — and the call actually reaches generation (no truthy cache
hit) — the cache is unchanged, the collaborator is invoked exactly once (no
retry), and the call yields the corresponding human-readable failure
message. -/
theorem generation_failure_atomic (cache : Cache) (topic : PyStr) (uc : Bool)
    (gen : GenBehavior)
    (hmiss : uc = true → ∀ p, get_cached_blog_post cache topic = some p → p = [])
    (hfail : genFails gen) :
    (run cache topic uc gen).cache = cache ∧
    (run cache topic uc gen).genCalls = 1 ∧
    (run cache topic uc gen).content = failContent topic gen := by
  have hrg : run cache topic uc gen = runGen cache topic gen := by
    cases uc with
    | false => rfl
    | true =>
      cases hget : get_cached_blog_post cache topic with
      | none => exact run_miss _ _ _ (Or.inl hget)
      | some p =>
        have hp : p = [] := hmiss rfl p hget
        subst hp
        exact run_miss _ _ _ (Or.inr hget)
  rw [hrg]
  cases gen with
  | raise m => exact ⟨rfl, rfl, rfl⟩
  | retNone => exact ⟨rfl, rfl, rfl⟩
  | ok c =>
    have hc : c = [] := hfail
    subst hc
    exact ⟨rfl, rfl, rfl⟩

/-- C7 witness: a nonempty cache without the topic, a raising collaborator. -/
theorem generation_failure_atomic_witness :
    ((true : Bool) = true → ∀ p,
      get_cached_blog_post [(chars "other", chars "doc")] (chars "yoga") = some p → p = []) ∧
    genFails (.raise (chars "boom")) ∧
    ((run [(chars "other", chars "doc")] (chars "yoga") true (.raise (chars "boom"))).cache =
      [(chars "other", chars "doc")] ∧
    (run [(chars "other", chars "doc")] (chars "yoga") true (.raise (chars "boom"))).genCalls = 1 ∧
    (run [(chars "other", chars "doc")] (chars "yoga") true (.raise (chars "boom"))).content =
      failContent (chars "yoga") (.raise (chars "boom"))) :=
  ⟨fun _ p hp => by
      rw [show get_cached_blog_post [(chars "other", chars "doc")] (chars "yoga") = none
        from by decide] at hp
      exact Option.noConfusion hp,
    trivial,
    generation_failure_atomic [(chars "other", chars "doc")] (chars "yoga") true
      (.raise (chars "boom"))
      (fun _ p hp => by
        rw [show get_cached_blog_post [(chars "other", chars "doc")] (chars "yoga") = none
          from by decide] at hp
        exact Option.noConfusion hp)
      trivial⟩

/-- C9: an empty-string document stored in the cache is treated as absent:
the truthiness check `if cached_post:` fails, so a `use_cache=True` call
behaves exactly like a `use_cache=False` call — the collaborator is invoked
once and the call is not a cache hit. -/
theorem empty_cached_post_treated_as_miss (cache : Cache) (topic : PyStr)
    (gen : GenBehavior) (h : get_cached_blog_post cache topic = some []) :
    run cache topic true gen = run cache topic false gen ∧
    (run cache topic true gen).genCalls = 1 ∧
    (run cache topic true gen).branch ≠ .cacheHit := by
  have h1 : run cache topic true gen = runGen cache topic gen :=
    run_miss _ _ _ (Or.inr h)
  refine ⟨h1.trans rfl, ?_, ?_⟩
  · rw [h1]
    exact runGen_genCalls _ _ _
  · rw [h1]
    exact runGen_branch_ne_cacheHit _ _ _

/-- C9 witness: a cache mapping "yoga" to the empty string. -/
theorem empty_cached_post_treated_as_miss_witness :
    get_cached_blog_post [(chars "yoga", [])] (chars "yoga") = some [] ∧
    (run [(chars "yoga", [])] (chars "yoga") true (.retNone) =
      run [(chars "yoga", [])] (chars "yoga") false (.retNone) ∧
    (run [(chars "yoga", [])] (chars "yoga") true (.retNone)).genCalls = 1 ∧
    (run [(chars "yoga", [])] (chars "yoga") true (.retNone)).branch ≠ .cacheHit) :=
  ⟨rfl, empty_cached_post_treated_as_miss [(chars "yoga", [])] (chars "yoga") .retNone rfl⟩


/-!
## Claim C4: cache key handling
-/

theorem pyLower_idem (c : Char) : pyLower (pyLower c) = pyLower c := by
  by_cases h1 : c = 'A'
  · subst h1; decide
  by_cases h2 : c = 'B'
  · subst h2; decide
  by_cases h3 : c = 'C'
  · subst h3; decide
  by_cases h4 : c = 'D'
  · subst h4; decide
  by_cases h5 : c = 'E'
  · subst h5; decide
  by_cases h6 : c = 'F'
  · subst h6; decide
  by_cases h7 : c = 'G'
  · subst h7; decide
  by_cases h8 : c = 'H'
  · subst h8; decide
  by_cases h9 : c = 'I'
  · subst h9; decide
  by_cases h10 : c = 'J'
  · subst h10; decide
  by_cases h11 : c = 'K'
  · subst h11; decide
  by_cases h12 : c = 'L'
  · subst h12; decide
  by_cases h13 : c = 'M'
  · subst h13; decide
  by_cases h14 : c = 'N'
  · subst h14; decide
  by_cases h15 : c = 'O'
  · subst h15; decide
  by_cases h16 : c = 'P'
  · subst h16; decide
  by_cases h17 : c = 'Q'
  · subst h17; decide
  by_cases h18 : c = 'R'
  · subst h18; decide
  by_cases h19 : c = 'S'
  · subst h19; decide
  by_cases h20 : c = 'T'
  · subst h20; decide
  by_cases h21 : c = 'U'
  · subst h21; decide
  by_cases h22 : c = 'V'
  · subst h22; decide
  by_cases h23 : c = 'W'
  · subst h23; decide
  by_cases h24 : c = 'X'
  · subst h24; decide
  by_cases h25 : c = 'Y'
  · subst h25; decide
  by_cases h26 : c = 'Z'
  · subst h26; decide
  have hc : pyLower c = c := by
    unfold pyLower
    rw [if_neg h1, if_neg h2, if_neg h3, if_neg h4, if_neg h5, if_neg h6, if_neg h7, if_neg h8, if_neg h9, if_neg h10, if_neg h11, if_neg h12, if_neg h13, if_neg h14, if_neg h15, if_neg h16, if_neg h17, if_neg h18, if_neg h19, if_neg h20, if_neg h21, if_neg h22, if_neg h23, if_neg h24, if_neg h25, if_neg h26]
  rw [hc, hc]

theorem url_safe_topic_cons (c : Char) (t : PyStr) :
    url_safe_topic (c :: t) =
      (if pyLower c = ' ' then '-' else pyLower c) :: url_safe_topic t := rfl

theorem url_safe_topic_idem (t : PyStr) :
    url_safe_topic (url_safe_topic t) = url_safe_topic t := by
  induction t with
  | nil => rfl
  | cons c t ih =>
    rw [url_safe_topic_cons, url_safe_topic_cons, ih]
    congr 1
    by_cases hy : pyLower c = ' '
    · rw [if_pos hy]
      decide
    · rw [if_neg hy, pyLower_idem c, if_neg hy]

/-- C4 counterexample: the cache's get and put use the raw topic, not a
normalized key — after caching under "Tree Pose", looking up "tree pose"
(differing only in letter case) misses. -/
theorem cache_key_not_normalized_counterexample :
    get_cached_blog_post
      (add_blog_post_to_cache [] (chars "Tree Pose") (chars "doc")) (chars "tree pose") =
      none ∧
    get_cached_blog_post
      (add_blog_post_to_cache [] (chars "Tree Pose") (chars "doc")) (chars "Tree Pose") =
      some (chars "doc") :=
  ⟨by decide, by decide⟩

/-- C4 (amended): the cache's get and put operate on the raw topic string —
lookups under the written key succeed and lookups under any other key
(including a case variant) are unaffected by the write; the
lowercase-and-hyphenate normalization of `generate_blog_post` (used only for
the session id) is idempotent. -/
theorem cache_key_raw_and_normalization_idempotent (t₁ t₂ : PyStr) (cache : Cache)
    (d : PyStr) (h : t₁ ≠ t₂) :
    url_safe_topic (url_safe_topic t₁) = url_safe_topic t₁ ∧
    get_cached_blog_post (add_blog_post_to_cache cache t₁ d) t₁ = some d ∧
    get_cached_blog_post (add_blog_post_to_cache cache t₁ d) t₂ =
      get_cached_blog_post cache t₂ :=
  ⟨url_safe_topic_idem t₁, dictGet_insert_self cache t₁ d,
    dictGet_insert_other cache t₁ t₂ d h⟩

/-- C4 witness: topics "Tree Pose" and "tree pose". -/
theorem cache_key_raw_witness :
    chars "Tree Pose" ≠ chars "tree pose" ∧
    (url_safe_topic (url_safe_topic (chars "Tree Pose")) =
      url_safe_topic (chars "Tree Pose") ∧
    get_cached_blog_post (add_blog_post_to_cache [] (chars "Tree Pose") (chars "doc"))
      (chars "Tree Pose") = some (chars "doc") ∧
    get_cached_blog_post (add_blog_post_to_cache [] (chars "Tree Pose") (chars "doc"))
      (chars "tree pose") = get_cached_blog_post [] (chars "tree pose")) :=
  ⟨by decide,
    cache_key_raw_and_normalization_idempotent (chars "Tree Pose") (chars "tree pose") []
      (chars "doc") (by decide)⟩


/-!
## Line-classification lemmas
-/

theorem ne_true_of_eq_false {b : Bool} (h : b = false) : ¬b = true := by
  rw [h]
  exact Bool.false_ne_true

theorem beq_false_of_right_isDigit (w c : Char) (hc : c.isDigit = true)
    (hw : w.isDigit = false) : (w == c) = false := by
  rw [beq_eq_false_iff_ne]
  rintro rfl
  rw [hc] at hw
  exact Bool.noConfusion hw

/-- Reduction of one loop iteration on a line that is non-blank, already
stripped, and matches none of the recognized heading or sign-off markers:
only the final accumulation branch runs. -/
theorem processLine_nonheading (st : ParseState) (l : PyStr)
    (hne : l ≠ [])
    (hstrip : pyStrip l = l)
    (h1 : startsWith (chars "## ") l = false)
    (h2 : startsWith (chars "### The Soul Space Perspective") l = false)
    (h3 : startsWith (chars "### Understanding the Science") l = false)
    (h4 : startsWith (chars "### Traditional Wisdom") l = false)
    (h5 : startsWith (chars "### Practical Applications") l = false)
    (h6 : startsWith (chars "### Key Takeaways") l = false)
    (h7 : startsWith (chars "### Scientific References") l = false)
    (h8 : startsWith (chars "Namaste,") l = false) :
    processLine st l =
      if isListSection st.current_section then
        if startsWith (chars "- ") l || startsWith (chars "* ") l || headDigit l then
          { st with current_text := st.current_text ++ [lstripMarkers l] }
        else st
      else { st with current_text := st.current_text ++ [l] } := by
  simp only [processLine]
  rw [hstrip]
  rw [if_neg (ne_true_of_eq_false (List.isEmpty_eq_false.mpr hne)),
    if_neg (ne_true_of_eq_false h1), if_neg (ne_true_of_eq_false h2),
    if_neg (ne_true_of_eq_false h3), if_neg (ne_true_of_eq_false h4),
    if_neg (ne_true_of_eq_false h5), if_neg (ne_true_of_eq_false h6),
    if_neg (ne_true_of_eq_false h7), if_neg (ne_true_of_eq_false h8)]

theorem pyStrip_dash_line (x : PyStr) (hx : x ≠ [])
    (hxr : x.reverse.dropWhile pyWS = x.reverse) :
    pyStrip ('-' :: ' ' :: x) = '-' :: ' ' :: x :=
  pyStrip_of_parts _ '-' (' ' :: x) rfl (by decide) (revdrop_append x ['-', ' '] hx hxr)

theorem pyStrip_star_line (x : PyStr) (hx : x ≠ [])
    (hxr : x.reverse.dropWhile pyWS = x.reverse) :
    pyStrip ('*' :: ' ' :: x) = '*' :: ' ' :: x :=
  pyStrip_of_parts _ '*' (' ' :: x) rfl (by decide) (revdrop_append x ['*', ' '] hx hxr)

theorem pyStrip_num_line (d₁ : Char) (dt x : PyStr) (hd1 : d₁.isDigit = true)
    (hx : x ≠ []) (hxr : x.reverse.dropWhile pyWS = x.reverse) :
    pyStrip ((d₁ :: dt) ++ '.' :: ' ' :: x) = (d₁ :: dt) ++ '.' :: ' ' :: x := by
  apply pyStrip_of_parts _ d₁ (dt ++ '.' :: ' ' :: x) rfl (pyWS_false_of_isDigit d₁ hd1)
  have h := revdrop_append x ((d₁ :: dt) ++ ['.', ' ']) hx hxr
  rw [List.append_assoc] at h
  exact h

theorem lstripMarkers_dash (x : PyStr) : lstripMarkers ('-' :: ' ' :: x) = lstripMarkers x := by
  unfold lstripMarkers
  rw [List.dropWhile_cons_of_pos (by decide), List.dropWhile_cons_of_pos (by decide)]

theorem lstripMarkers_star (x : PyStr) : lstripMarkers ('*' :: ' ' :: x) = lstripMarkers x := by
  unfold lstripMarkers
  rw [List.dropWhile_cons_of_pos (by decide), List.dropWhile_cons_of_pos (by decide)]

theorem lstripMarkers_num (d x : PyStr) (hdd : ∀ c ∈ d, c.isDigit = true) :
    lstripMarkers (d ++ '.' :: ' ' :: x) = lstripMarkers x := by
  unfold lstripMarkers
  have hall : ∀ a ∈ d ++ ['.', ' '], markerChar a = true := by
    intro a ha
    rcases List.mem_append.mp ha with ha | ha
    · unfold markerChar
      rw [hdd a ha]
      simp
    · simp only [List.mem_cons] at ha
      rcases ha with rfl | rfl | ha0
      · decide
      · decide
      · exact absurd ha0 (List.not_mem_nil a)
  have hsh : d ++ '.' :: ' ' :: x = (d ++ ['.', ' ']) ++ x := by
    rw [List.append_assoc]
    rfl
  rw [hsh, List.dropWhile_append_of_pos hall]

theorem processLine_dash_item (st : ParseState) (x : PyStr)
    (hsec : isListSection st.current_section = true) (hx : x ≠ [])
    (hxr : x.reverse.dropWhile pyWS = x.reverse) :
    processLine st ('-' :: ' ' :: x) =
      { st with current_text := st.current_text ++ [lstripMarkers x] } := by
  rw [processLine_nonheading st ('-' :: ' ' :: x) (List.cons_ne_nil _ _)
    (pyStrip_dash_line x hx hxr)
    (startsWith_false_of_head_ne '#' '-' _ _ (by decide))
    (startsWith_false_of_head_ne '#' '-' _ _ (by decide))
    (startsWith_false_of_head_ne '#' '-' _ _ (by decide))
    (startsWith_false_of_head_ne '#' '-' _ _ (by decide))
    (startsWith_false_of_head_ne '#' '-' _ _ (by decide))
    (startsWith_false_of_head_ne '#' '-' _ _ (by decide))
    (startsWith_false_of_head_ne '#' '-' _ _ (by decide))
    (startsWith_false_of_head_ne 'N' '-' _ _ (by decide)),
    if_pos hsec, lstripMarkers_dash]
  have hsw : startsWith (chars "- ") ('-' :: ' ' :: x) = true := by
    show startsWith ('-' :: ' ' :: ([] : PyStr)) ('-' :: ' ' :: x) = true
    simp [startsWith]
  rw [hsw]
  simp

theorem processLine_star_item (st : ParseState) (x : PyStr)
    (hsec : isListSection st.current_section = true) (hx : x ≠ [])
    (hxr : x.reverse.dropWhile pyWS = x.reverse) :
    processLine st ('*' :: ' ' :: x) =
      { st with current_text := st.current_text ++ [lstripMarkers x] } := by
  rw [processLine_nonheading st ('*' :: ' ' :: x) (List.cons_ne_nil _ _)
    (pyStrip_star_line x hx hxr)
    (startsWith_false_of_head_ne '#' '*' _ _ (by decide))
    (startsWith_false_of_head_ne '#' '*' _ _ (by decide))
    (startsWith_false_of_head_ne '#' '*' _ _ (by decide))
    (startsWith_false_of_head_ne '#' '*' _ _ (by decide))
    (startsWith_false_of_head_ne '#' '*' _ _ (by decide))
    (startsWith_false_of_head_ne '#' '*' _ _ (by decide))
    (startsWith_false_of_head_ne '#' '*' _ _ (by decide))
    (startsWith_false_of_head_ne 'N' '*' _ _ (by decide)),
    if_pos hsec, lstripMarkers_star]
  have hsw : startsWith (chars "* ") ('*' :: ' ' :: x) = true := by
    show startsWith ('*' :: ' ' :: ([] : PyStr)) ('*' :: ' ' :: x) = true
    simp [startsWith]
  rw [hsw]
  simp

theorem processLine_num_item (st : ParseState) (d x : PyStr)
    (hsec : isListSection st.current_section = true)
    (hd : d ≠ []) (hdd : ∀ c ∈ d, c.isDigit = true) (hx : x ≠ [])
    (hxr : x.reverse.dropWhile pyWS = x.reverse) :
    processLine st (d ++ '.' :: ' ' :: x) =
      { st with current_text := st.current_text ++ [lstripMarkers x] } := by
  cases d with
  | nil => exact absurd rfl hd
  | cons d₁ dt =>
    have hd1 : d₁.isDigit = true := hdd d₁ (List.mem_cons_self _ _)
    rw [processLine_nonheading st ((d₁ :: dt) ++ '.' :: ' ' :: x) (List.cons_ne_nil _ _)
      (pyStrip_num_line d₁ dt x hd1 hx hxr)
      (startsWith_false_of_head_ne '#' d₁ _ _ (beq_false_of_right_isDigit '#' d₁ hd1 (by decide)))
      (startsWith_false_of_head_ne '#' d₁ _ _ (beq_false_of_right_isDigit '#' d₁ hd1 (by decide)))
      (startsWith_false_of_head_ne '#' d₁ _ _ (beq_false_of_right_isDigit '#' d₁ hd1 (by decide)))
      (startsWith_false_of_head_ne '#' d₁ _ _ (beq_false_of_right_isDigit '#' d₁ hd1 (by decide)))
      (startsWith_false_of_head_ne '#' d₁ _ _ (beq_false_of_right_isDigit '#' d₁ hd1 (by decide)))
      (startsWith_false_of_head_ne '#' d₁ _ _ (beq_false_of_right_isDigit '#' d₁ hd1 (by decide)))
      (startsWith_false_of_head_ne '#' d₁ _ _ (beq_false_of_right_isDigit '#' d₁ hd1 (by decide)))
      (startsWith_false_of_head_ne 'N' d₁ _ _ (beq_false_of_right_isDigit 'N' d₁ hd1 (by decide))),
      if_pos hsec, lstripMarkers_num (d₁ :: dt) x hdd]
    have hA : startsWith (chars "- ") ((d₁ :: dt) ++ '.' :: ' ' :: x) = false :=
      startsWith_false_of_head_ne '-' d₁ _ _ (beq_false_of_right_isDigit '-' d₁ hd1 (by decide))
    have hB : startsWith (chars "* ") ((d₁ :: dt) ++ '.' :: ' ' :: x) = false :=
      startsWith_false_of_head_ne '*' d₁ _ _ (beq_false_of_right_isDigit '*' d₁ hd1 (by decide))
    have hC : headDigit ((d₁ :: dt) ++ '.' :: ' ' :: x) = true := by
      show headDigit (d₁ :: (dt ++ '.' :: ' ' :: x)) = true
      simp [headDigit, hd1]
    rw [hA, hB, hC]
    simp


/-!
## Claims C8 and C10
-/

/-- C8 counterexample: the claim says the stored string is the content with
only the list-marker prefix stripped, but `lstrip('- *0123456789. ')` also
eats leading digits (and dots/spaces) of the content itself: the reference
line `"1. 2020 Smith"` is stored as `"Smith"`, not `"2020 Smith"`. -/
theorem list_marker_stripping_counterexample :
    parse_response (chars "### Scientific References\n1. 2020 Smith") =
      some ⟨[], [], [], [], [], [], [chars "Smith"]⟩ ∧
    (chars "Smith" : PyStr) ≠ chars "2020 Smith" :=
  ⟨by rfl, by decide⟩

/-- C8 (amended): inside an open list section, the list lines `"- c"`,
`"* c"` and `"<digits>. c"` with the same content `c` (a nonempty single
line without trailing whitespace) are all accumulated as the same stored
string, namely `c` with every leading character of the lstrip set
(dash, space, asterisk, dot, digits) stripped. -/
theorem list_marker_stripping_uniform (st : ParseState) (x d : PyStr)
    (hsec : isListSection st.current_section = true)
    (hx : x ≠ []) (hxr : x.reverse.dropWhile pyWS = x.reverse)
    (hd : d ≠ []) (hdd : ∀ c ∈ d, c.isDigit = true) :
    processLine st ('-' :: ' ' :: x) =
      { st with current_text := st.current_text ++ [lstripMarkers x] } ∧
    processLine st ('*' :: ' ' :: x) =
      { st with current_text := st.current_text ++ [lstripMarkers x] } ∧
    processLine st (d ++ '.' :: ' ' :: x) =
      { st with current_text := st.current_text ++ [lstripMarkers x] } :=
  ⟨processLine_dash_item st x hsec hx hxr,
    processLine_star_item st x hsec hx hxr,
    processLine_num_item st d x hsec hd hdd hx hxr⟩

/-- C8 witness: content "Smith 2020" in an open references section, under the
markers "- ", "* " and "3. ". -/
theorem list_marker_stripping_uniform_witness :
    (isListSection (some SectionName.references) = true ∧
      (chars "Smith 2020") ≠ [] ∧
      (chars "Smith 2020").reverse.dropWhile pyWS = (chars "Smith 2020").reverse ∧
      (chars "3") ≠ [] ∧ ∀ c ∈ chars "3", c.isDigit = true) ∧
    (processLine ⟨initialSections, some .references, []⟩ ('-' :: ' ' :: chars "Smith 2020") =
      ⟨initialSections, some .references, [lstripMarkers (chars "Smith 2020")]⟩ ∧
    processLine ⟨initialSections, some .references, []⟩ ('*' :: ' ' :: chars "Smith 2020") =
      ⟨initialSections, some .references, [lstripMarkers (chars "Smith 2020")]⟩ ∧
    processLine ⟨initialSections, some .references, []⟩
        (chars "3" ++ '.' :: ' ' :: chars "Smith 2020") =
      ⟨initialSections, some .references, [lstripMarkers (chars "Smith 2020")]⟩) :=
  ⟨⟨by decide, by decide, by decide, by decide, by decide⟩,
    list_marker_stripping_uniform ⟨initialSections, some .references, []⟩
      (chars "Smith 2020") (chars "3") (by decide) (by decide) (by decide) (by decide)
      (by decide)⟩

/-- C10: a line starting with `"### "` that matches none of the six
recognized sub-heading prefixes is never a section transition: it neither
flushes a buffer nor changes `current_section`; in a free-text (or no)
section it is accumulated verbatim, and in a list section it is dropped
because it matches none of the list-item patterns. -/
theorem unrecognized_subheading_not_transition (st : ParseState) (l : PyStr)
    (hsw : startsWith (chars "### ") l = true)
    (hstrip : pyStrip l = l)
    (h2 : startsWith (chars "### The Soul Space Perspective") l = false)
    (h3 : startsWith (chars "### Understanding the Science") l = false)
    (h4 : startsWith (chars "### Traditional Wisdom") l = false)
    (h5 : startsWith (chars "### Practical Applications") l = false)
    (h6 : startsWith (chars "### Key Takeaways") l = false)
    (h7 : startsWith (chars "### Scientific References") l = false) :
    processLine st l =
      if isListSection st.current_section then st
      else { st with current_text := st.current_text ++ [l] } := by
  obtain ⟨t, rfl⟩ := (startsWith_true_iff (chars "### ") l).mp hsw
  have hshape : chars "### " ++ t = '#' :: '#' :: '#' :: ' ' :: t := rfl
  rw [hshape] at hstrip h2 h3 h4 h5 h6 h7 ⊢
  have h1 : startsWith (chars "## ") ('#' :: '#' :: '#' :: ' ' :: t) = false := by
    show startsWith ('#' :: '#' :: ' ' :: ([] : PyStr)) ('#' :: '#' :: '#' :: ' ' :: t) = false
    simp [startsWith]
  have h8 : startsWith (chars "Namaste,") ('#' :: '#' :: '#' :: ' ' :: t) = false :=
    startsWith_false_of_head_ne 'N' '#' _ _ (by decide)
  rw [processLine_nonheading st _ (List.cons_ne_nil _ _) hstrip h1 h2 h3 h4 h5 h6 h7 h8]
  have hA : startsWith (chars "- ") ('#' :: '#' :: '#' :: ' ' :: t) = false :=
    startsWith_false_of_head_ne '-' '#' _ _ (by decide)
  have hB : startsWith (chars "* ") ('#' :: '#' :: '#' :: ' ' :: t) = false :=
    startsWith_false_of_head_ne '*' '#' _ _ (by decide)
  have hC : headDigit ('#' :: '#' :: '#' :: ' ' :: t) = false := by
    simp [headDigit]
  rw [hA, hB, hC]
  simp

/-- C10 witness: the line "### Conclusion" while the perspective section is
open: it is accumulated as plain text and the state machine does not
transition. -/
theorem unrecognized_subheading_witness :
    (startsWith (chars "### ") (chars "### Conclusion") = true ∧
      pyStrip (chars "### Conclusion") = chars "### Conclusion" ∧
      startsWith (chars "### The Soul Space Perspective") (chars "### Conclusion") = false ∧
      startsWith (chars "### Understanding the Science") (chars "### Conclusion") = false ∧
      startsWith (chars "### Traditional Wisdom") (chars "### Conclusion") = false ∧
      startsWith (chars "### Practical Applications") (chars "### Conclusion") = false ∧
      startsWith (chars "### Key Takeaways") (chars "### Conclusion") = false ∧
      startsWith (chars "### Scientific References") (chars "### Conclusion") = false) ∧
    processLine ⟨initialSections, some .perspective, []⟩ (chars "### Conclusion") =
      (if isListSection (some SectionName.perspective) then
        (⟨initialSections, some .perspective, []⟩ : ParseState)
      else ⟨initialSections, some .perspective, [chars "### Conclusion"]⟩) :=
  ⟨⟨by decide, by decide, by decide, by decide, by decide, by decide, by decide, by decide⟩,
    unrecognized_subheading_not_transition ⟨initialSections, some .perspective, []⟩
      (chars "### Conclusion") (by decide) (by decide) (by decide) (by decide) (by decide)
      (by decide) (by decide) (by decide)⟩


/-!
## Single-step lemmas for the recognized lines
-/

theorem processLine_blank (st : ParseState) : processLine st [] = st := rfl

theorem processLine_persHdr (st : ParseState) :
    processLine st (chars "### The Soul Space Perspective") =
      ⟨flushJoin st, some .perspective, []⟩ := rfl

theorem processLine_sciHdr (st : ParseState) :
    processLine st (chars "### Understanding the Science") =
      ⟨flushJoin st, some .science, []⟩ := rfl

theorem processLine_tradHdr (st : ParseState) :
    processLine st (chars "### Traditional Wisdom Meets Modern Research") =
      ⟨flushJoin st, some .integration, []⟩ := rfl

theorem processLine_appHdr (st : ParseState) :
    processLine st (chars "### Practical Applications") =
      ⟨flushJoin st, some .applications, []⟩ := rfl

theorem processLine_keyHdr (st : ParseState) :
    processLine st (chars "### Key Takeaways") =
      ⟨if st.current_section = some .applications then
          setSec st.sections .applications (.listv (listFlush st.current_text))
        else st.sections, some .takeaways, []⟩ := rfl

theorem processLine_refHdr (st : ParseState) :
    processLine st (chars "### Scientific References") =
      ⟨if st.current_section = some .takeaways then
          setSec st.sections .takeaways (.listv (listFlush st.current_text))
        else st.sections, some .references, []⟩ := rfl

theorem handleLast_not_refs (secs : Sections) (cs : Option SectionName) (buf : List PyStr)
    (h : cs ≠ some SectionName.references) :
    handleLast ⟨secs, cs, buf⟩ = secs := by
  unfold handleLast
  rw [if_neg h]

theorem handleLast_refs_cons (secs : Sections) (b : PyStr) (bs : List PyStr) :
    handleLast ⟨secs, some .references, b :: bs⟩ =
      setSec secs .references (.listv ((b :: bs).filter (fun x => !x.isEmpty))) := rfl

theorem map_eq_self_of {α : Type} (l : List α) (f : α → α) (h : ∀ x ∈ l, f x = x) :
    l.map f = l := by
  induction l with
  | nil => rfl
  | cons x xs ih =>
    rw [List.map_cons, h x (List.mem_cons_self _ _),
      ih (fun y hy => h y (List.mem_cons_of_mem _ hy))]

theorem foldl_dash_items (its : List PyStr) (secs : Sections) (cs : SectionName)
    (hsec : isListSection (some cs) = true) (buf : List PyStr)
    (hits : ∀ x ∈ its, x ≠ [] ∧ x.reverse.dropWhile pyWS = x.reverse) :
    List.foldl processLine ⟨secs, some cs, buf⟩ (its.map (fun x => '-' :: ' ' :: x)) =
      ⟨secs, some cs, buf ++ its.map lstripMarkers⟩ := by
  induction its generalizing buf with
  | nil => simp
  | cons x xs ih =>
    have hx := hits x (List.mem_cons_self _ _)
    rw [List.map_cons, List.foldl_cons, processLine_dash_item _ _ hsec hx.1 hx.2,
      ih (buf ++ [lstripMarkers x]) (fun y hy => hits y (List.mem_cons_of_mem _ hy)),
      List.map_cons, List.append_assoc]
    rfl

/-!
## Claim C2: end-of-input flushing
-/

/-- C2 counterexample: an input whose last recognized sub-heading is
"Key Takeaways" loses the accumulated takeaway items — the parse yields an
empty takeaways list instead of the accumulated item. -/
theorem takeaways_dropped_at_end_counterexample :
    (parse_response (chars "### Key Takeaways\n- Slow breath")).map
      YogaBlogPost.takeaways = some [] ∧
    (parse_response (chars "### Key Takeaways\n- Slow breath")).map
      YogaBlogPost.takeaways ≠ some [chars "Slow breath"] :=
  ⟨rfl, by decide⟩

/-- C2 (amended): at end of input only an open references section is flushed.
For the same well-formed items, an input ending inside the takeaways section
yields an empty takeaways list (the buffer is dropped), while an input
ending inside the references section yields exactly the accumulated items. -/
theorem end_of_input_flush_only_references (its : List PyStr)
    (hits : ∀ x ∈ its, x ≠ [] ∧ '\n' ∉ x ∧
      x.reverse.dropWhile pyWS = x.reverse ∧ x.dropWhile markerChar = x) :
    (parse_response
        (joinNL (chars "### Key Takeaways" :: its.map (fun x => '-' :: ' ' :: x)))).map
      YogaBlogPost.takeaways = some [] ∧
    (parse_response
        (joinNL (chars "### Scientific References" :: its.map (fun x => '-' :: ' ' :: x)))).map
      YogaBlogPost.references = some its := by
  have hnl : ∀ hdr : PyStr, '\n' ∉ hdr →
      splitLines (joinNL (hdr :: its.map (fun x => '-' :: ' ' :: x))) =
        hdr :: its.map (fun x => '-' :: ' ' :: x) := by
    intro hdr hh
    apply splitLines_joinNL _ (List.cons_ne_nil _ _)
    intro l hl
    rcases List.mem_cons.mp hl with rfl | hl
    · exact hh
    · obtain ⟨x, hx, rfl⟩ := List.mem_map.mp hl
      have := (hits x hx).2.1
      simp only [List.mem_cons, not_or]
      exact ⟨by decide, by decide, this⟩
  have hmap : its.map lstripMarkers = its :=
    map_eq_self_of its lstripMarkers (fun x hx => (hits x hx).2.2.2)
  have hitems : ∀ x ∈ its, x ≠ [] ∧ x.reverse.dropWhile pyWS = x.reverse :=
    fun x hx => ⟨(hits x hx).1, (hits x hx).2.2.1⟩
  constructor
  · unfold parse_response parseLines
    rw [hnl (chars "### Key Takeaways") (by decide), List.foldl_cons, processLine_keyHdr,
      if_neg (by decide), foldl_dash_items its _ _ (by decide) [] hitems,
      handleLast_not_refs _ _ _ (by decide)]
    rfl
  · unfold parse_response parseLines
    rw [hnl (chars "### Scientific References") (by decide), List.foldl_cons,
      processLine_refHdr, if_neg (by decide),
      foldl_dash_items its _ _ (by decide) [] hitems, hmap]
    cases its with
    | nil => rfl
    | cons b bs =>
      have hfil : (b :: bs).filter (fun x => !x.isEmpty) = b :: bs := by
        rw [List.filter_eq_self]
        intro a ha
        rw [List.isEmpty_eq_false.mpr (hits a ha).1]
        rfl
      rw [List.nil_append, handleLast_refs_cons, hfil]
      rfl

/-- C2 witness: the single item "Slow breath". -/
theorem end_of_input_flush_witness :
    (∀ x ∈ [chars "Slow breath"], x ≠ [] ∧ '\n' ∉ x ∧
      x.reverse.dropWhile pyWS = x.reverse ∧ x.dropWhile markerChar = x) ∧
    ((parse_response (joinNL (chars "### Key Takeaways" ::
        [chars "Slow breath"].map (fun x => '-' :: ' ' :: x)))).map
      YogaBlogPost.takeaways = some [] ∧
    (parse_response (joinNL (chars "### Scientific References" ::
        [chars "Slow breath"].map (fun x => '-' :: ' ' :: x)))).map
      YogaBlogPost.references = some [chars "Slow breath"]) :=
  ⟨by decide, end_of_input_flush_only_references [chars "Slow breath"] (by decide)⟩


/-!
## Round-trip helper lemmas
-/

theorem setSec_self (s : Sections) (name : SectionName) :
    setSec s name (getSec s name) = s := by
  cases name <;> rfl

theorem normV_strv (f : PyStr) : normV (.strv []) (.strv f) = .strv f := by
  cases f with
  | nil => rfl
  | cons a l => rfl

theorem normV_listv (v : List PyStr) : normV (.listv []) (.listv v) = .listv v := by
  cases v with
  | nil => rfl
  | cons a l => rfl

theorem ite_isEmpty_self (t : PyStr) : (if t.isEmpty then ([] : PyStr) else t) = t := by
  cases t with
  | nil => rfl
  | cons a l => rfl

theorem digitChar_isDigit (n : Nat) : (digitChar n).isDigit = true := by
  unfold digitChar
  split <;> decide

theorem natCharsAux_spec (fuel : Nat) :
    ∀ n, n < fuel → natCharsAux fuel n ≠ [] ∧ ∀ c ∈ natCharsAux fuel n, c.isDigit = true := by
  induction fuel with
  | zero => intro n h; exact absurd h (Nat.not_lt_zero n)
  | succ f ih =>
    intro n h
    by_cases hn : n < 10
    · unfold natCharsAux
      rw [if_pos hn]
      refine ⟨List.cons_ne_nil _ _, ?_⟩
      intro c hc
      rcases List.mem_singleton.mp hc with rfl
      exact digitChar_isDigit n
    · unfold natCharsAux
      rw [if_neg hn]
      have hlt : n / 10 < f := by
        have h1 : n / 10 < n := Nat.div_lt_self (by omega) (by omega)
        omega
      refine ⟨by simp, ?_⟩
      intro c hc
      rcases List.mem_append.mp hc with hc | hc
      · exact (ih (n / 10) hlt).2 c hc
      · rcases List.mem_singleton.mp hc with rfl
        exact digitChar_isDigit (n % 10)

theorem natChars_ne_nil (n : Nat) : natChars n ≠ [] :=
  (natCharsAux_spec (n + 1) n (Nat.lt_succ_self n)).1

theorem natChars_digits (n : Nat) : ∀ c ∈ natChars n, c.isDigit = true :=
  (natCharsAux_spec (n + 1) n (Nat.lt_succ_self n)).2

theorem nl_not_mem_natChars (n : Nat) : '\n' ∉ natChars n := by
  intro hm
  have := natChars_digits n '\n' hm
  exact absurd this (by decide)

theorem processLine_title (st : ParseState) (t : PyStr) (ht : t ≠ [])
    (hr : t.reverse.dropWhile pyWS = t.reverse) (hrep : replaceHH t = t) :
    processLine st (chars "## " ++ t) =
      { st with sections := { st.sections with title := t } } := by
  have hshape : chars "## " ++ t = '#' :: '#' :: ' ' :: t := rfl
  rw [hshape]
  simp only [processLine]
  have hstrip : pyStrip ('#' :: '#' :: ' ' :: t) = '#' :: '#' :: ' ' :: t :=
    pyStrip_of_parts _ '#' ('#' :: ' ' :: t) rfl (by decide)
      (revdrop_append t ['#', '#', ' '] ht hr)
  rw [hstrip]
  have hsw : startsWith (chars "## ") ('#' :: '#' :: ' ' :: t) = true := by
    show startsWith ('#' :: '#' :: ' ' :: ([] : PyStr)) ('#' :: '#' :: ' ' :: t) = true
    simp [startsWith]
  rw [if_neg (ne_true_of_eq_false (by rfl)), if_pos hsw,
    show replaceHH ('#' :: '#' :: ' ' :: t) = replaceHH t from rfl, hrep]

theorem processLine_namaste (st : ParseState) : processLine st (chars "Namaste,") = st := rfl

theorem processLine_jen (secs : Sections) (buf : List PyStr) :
    processLine ⟨secs, some .references, buf⟩ (chars "Jen Patel") =
      ⟨secs, some .references, buf⟩ := rfl

theorem processLine_founder (secs : Sections) (buf : List PyStr) :
    processLine ⟨secs, some .references, buf⟩ (chars "Founder, Soul Space") =
      ⟨secs, some .references, buf⟩ := rfl

theorem handleLast_refs_nil (secs : Sections) :
    handleLast ⟨secs, some .references, []⟩ = secs := rfl


theorem foldl_text_lines (L : List PyStr) (secs : Sections) (cs : Option SectionName)
    (hcs : isListSection cs = false) :
    ∀ buf, (∀ l ∈ L, goodTextLine l) →
      List.foldl processLine ⟨secs, cs, buf⟩ L = ⟨secs, cs, buf ++ L⟩ := by
  induction L with
  | nil => intro buf _; simp
  | cons l ls ih =>
    intro buf hL
    obtain ⟨hne, hnl, hstrip, h1, h2, h3, h4, h5, h6, h7, h8⟩ := hL l (List.mem_cons_self _ _)
    rw [List.foldl_cons,
      processLine_nonheading _ _ hne hstrip h1 h2 h3 h4 h5 h6 h7 h8,
      if_neg (ne_true_of_eq_false hcs),
      ih (buf ++ [l]) (fun y hy => hL y (List.mem_cons_of_mem _ hy)),
      List.append_assoc]
    rfl

theorem foldl_text_field (secs : Sections) (cs : SectionName)
    (hcs : isListSection (some cs) = false) (f : PyStr) (hf : wfText f) :
    List.foldl processLine ⟨secs, some cs, []⟩ (splitLines f) =
      ⟨secs, some cs, if f.isEmpty then [] else splitLines f⟩ := by
  rcases hf with rfl | hgood
  · rfl
  · have hne : f ≠ [] := by
      rintro rfl
      exact absurd rfl (hgood [] (by
        rw [show splitLines ([] : PyStr) = [[]] from rfl]
        exact List.mem_cons_self _ _)).1
    rw [foldl_text_lines (splitLines f) secs (some cs) hcs [] hgood, List.nil_append,
      if_neg (ne_true_of_eq_false (List.isEmpty_eq_false.mpr hne))]

theorem flushJoin_after_text (secs : Sections) (cs : SectionName) (f : PyStr)
    (hsec : getSec secs cs = .strv []) :
    flushJoin ⟨secs, some cs, if f.isEmpty then [] else splitLines f⟩ =
      setSec secs cs (.strv f) := by
  by_cases hf : f = []
  · subst hf
    show secs = setSec secs cs (.strv [])
    rw [← hsec, setSec_self]
  · rw [if_neg (ne_true_of_eq_false (List.isEmpty_eq_false.mpr hf))]
    cases hs : splitLines f with
    | nil => exact absurd hs (splitLines_ne_nil f)
    | cons h tl =>
      show setSec secs cs (.strv (joinNL (h :: tl))) = setSec secs cs (.strv f)
      rw [← hs, joinNL_splitLines]

theorem text_then_flush (secs : Sections) (cs : SectionName)
    (hcs : isListSection (some cs) = false) (hsec : getSec secs cs = .strv [])
    (f : PyStr) (hf : wfText f) :
    flushJoin (List.foldl processLine ⟨secs, some cs, []⟩ (splitLines f)) =
      setSec secs cs (.strv f) := by
  rw [foldl_text_field secs cs hcs f hf]
  exact flushJoin_after_text secs cs f hsec

theorem listFlush_of_goodItems (items : List PyStr) (hit : ∀ x ∈ items, goodItem x) :
    listFlush items = items := by
  unfold listFlush
  rw [map_eq_self_of _ _ (fun x hx => (hit x hx).2.2.2.2)]
  apply List.filter_eq_self.mpr
  intro a ha
  rw [List.isEmpty_eq_false.mpr (hit a ha).1]
  rfl

theorem list_field_block (secs : Sections) (cs : SectionName)
    (hsec : isListSection (some cs) = true)
    (items : List PyStr) (hit : ∀ x ∈ items, goodItem x) :
    List.foldl processLine ⟨secs, some cs, []⟩ (splitLines (joinNL (bulletLines items))) =
      ⟨secs, some cs, items⟩ := by
  cases items with
  | nil => rfl
  | cons a as =>
    have hsplit : splitLines (joinNL (bulletLines (a :: as))) = bulletLines (a :: as) := by
      apply splitLines_joinNL _ (by simp [bulletLines])
      intro l hl
      obtain ⟨x, hx, rfl⟩ := List.mem_map.mp hl
      intro hmem
      rcases List.mem_append.mp hmem with h | h
      · revert h; decide
      · exact (hit x hx).2.1 h
    rw [hsplit, show bulletLines (a :: as) = (a :: as).map (fun x => '-' :: ' ' :: x) from rfl,
      foldl_dash_items _ _ _ hsec []
        (fun x hx => ⟨(hit x hx).1, (hit x hx).2.2.1⟩),
      List.nil_append,
      map_eq_self_of (a :: as) lstripMarkers (fun x hx => (hit x hx).2.2.2.1)]

theorem foldl_ref_lines (refs : List PyStr) (href : ∀ x ∈ refs, goodItem x) :
    ∀ (k : Nat) (secs : Sections) (buf : List PyStr),
      List.foldl processLine ⟨secs, some .references, buf⟩
        ((List.enumFrom k refs).map (fun p => natChars (p.1 + 1) ++ chars ". " ++ p.2)) =
      ⟨secs, some .references, buf ++ refs⟩ := by
  induction refs with
  | nil => intro k secs buf; simp
  | cons x xs ih =>
    intro k secs buf
    have hx := href x (List.mem_cons_self _ _)
    rw [List.enumFrom_cons, List.map_cons, List.foldl_cons]
    have hline : natChars (k + 1) ++ chars ". " ++ x = natChars (k + 1) ++ '.' :: ' ' :: x := by
      rw [List.append_assoc]
      rfl
    rw [hline,
      processLine_num_item ⟨secs, some .references, buf⟩ (natChars (k + 1)) x rfl
        (natChars_ne_nil _) (natChars_digits _) hx.1 hx.2.2.1,
      show lstripMarkers x = x from hx.2.2.2.1,
      ih (fun y hy => href y (List.mem_cons_of_mem _ hy)) (k + 1) secs (buf ++ [x]),
      List.append_assoc]
    rfl

theorem ref_field_block (secs : Sections) (refs : List PyStr)
    (hit : ∀ x ∈ refs, goodItem x) :
    List.foldl processLine ⟨secs, some .references, []⟩
      (splitLines (joinNL (refLines refs))) =
      ⟨secs, some .references, refs⟩ := by
  cases refs with
  | nil => rfl
  | cons a as =>
    have hsplit : splitLines (joinNL (refLines (a :: as))) = refLines (a :: as) := by
      apply splitLines_joinNL _ (by simp [refLines, List.enum_cons])
      intro l hl
      obtain ⟨p, hp, rfl⟩ := List.mem_map.mp hl
      intro hmem
      rcases List.mem_append.mp hmem with h | h
      · rcases List.mem_append.mp h with h | h
        · exact nl_not_mem_natChars _ h
        · revert h; decide
      · have hx : p.2 ∈ a :: as := List.snd_mem_of_mem_enumFrom hp
        exact (hit p.2 hx).2.1 h
    rw [hsplit, show refLines (a :: as) =
        (List.enumFrom 0 (a :: as)).map (fun p => natChars (p.1 + 1) ++ chars ". " ++ p.2)
      from rfl,
      foldl_ref_lines (a :: as) hit 0 secs [], List.nil_append]

theorem handleLast_refs_good (secs : Sections) (refs : List PyStr)
    (hit : ∀ x ∈ refs, goodItem x) (hsec : getSec secs .references = .listv []) :
    handleLast ⟨secs, some .references, refs⟩ = setSec secs .references (.listv refs) := by
  cases refs with
  | nil =>
    rw [handleLast_refs_nil]
    show secs = setSec secs .references (.listv [])
    rw [← hsec, setSec_self]
  | cons b bs =>
    rw [handleLast_refs_cons]
    have hfil : (b :: bs).filter (fun x => !x.isEmpty) = b :: bs := by
      apply List.filter_eq_self.mpr
      intro a ha
      rw [List.isEmpty_eq_false.mpr (hit a ha).1]
      rfl
    rw [hfil]


theorem format_split (b : YogaBlogPost) :
    splitLines (format_blog_post b) = formatLines b := by
  unfold format_blog_post formatLines bulletLines refLines
  simp only [splitLines_append]
  simp only [show splitLines ([] : PyStr) = [[]] from rfl,
    show splitLines (chars "### The Soul Space Perspective") =
      [chars "### The Soul Space Perspective"] from rfl,
    show splitLines (chars "### Understanding the Science") =
      [chars "### Understanding the Science"] from rfl,
    show splitLines (chars "### Traditional Wisdom Meets Modern Research") =
      [chars "### Traditional Wisdom Meets Modern Research"] from rfl,
    show splitLines (chars "### Practical Applications") =
      [chars "### Practical Applications"] from rfl,
    show splitLines (chars "### Key Takeaways") = [chars "### Key Takeaways"] from rfl,
    show splitLines (chars "### Scientific References") =
      [chars "### Scientific References"] from rfl,
    show splitLines (chars "Namaste,") = [chars "Namaste,"] from rfl,
    show splitLines (chars "Jen Patel") = [chars "Jen Patel"] from rfl,
    show splitLines (chars "Founder, Soul Space") = [chars "Founder, Soul Space"] from rfl,
    List.append_assoc]

theorem title_block_step (t : PyStr) (hT : wfTitle t) :
    processLine (List.foldl processLine initialState (splitLines (chars "## " ++ t)))
      (chars "### The Soul Space Perspective") =
      ⟨⟨t, .strv [], .strv [], .strv [], .listv [], .listv [], .listv []⟩,
        some .perspective, []⟩ := by
  rcases hT with rfl | ⟨hnl, hr, hrep⟩
  · rfl
  · by_cases ht0 : t = []
    · subst ht0; rfl
    · have hnl2 : '\n' ∉ chars "## " ++ t := by
        intro hm
        rcases List.mem_append.mp hm with h | h
        · revert h; decide
        · exact hnl h
      rw [splitLines_no_nl _ hnl2, List.foldl_cons, List.foldl_nil,
        processLine_title initialState t ht0 hr hrep, processLine_persHdr]
      rfl


theorem key_after_apps (secs : Sections) (apps : List PyStr) :
    processLine ⟨secs, some .applications, apps⟩ (chars "### Key Takeaways") =
      ⟨setSec secs .applications (.listv (listFlush apps)), some .takeaways, []⟩ := rfl

theorem ref_after_takes (secs : Sections) (takes : List PyStr) :
    processLine ⟨secs, some .takeaways, takes⟩ (chars "### Scientific References") =
      ⟨setSec secs .takeaways (.listv (listFlush takes)), some .references, []⟩ := rfl

/-- C3 (amended): formatting then re-parsing restores every field of a
well-formed record. -/
theorem parse_format_roundtrip (b : YogaBlogPost) (hwf : wfRecord b) :
    parse_response (format_blog_post b) = some b := by
  obtain ⟨hT, hP, hS, hI, hA, hK, hR⟩ := hwf
  show parseLines (splitLines (format_blog_post b)) = some b
  rw [format_split b]
  unfold parseLines formatLines
  simp only [List.foldl_append, List.foldl_cons, List.foldl_nil, processLine_blank,
    processLine_namaste]
  rw [title_block_step b.title hT]
  rw [processLine_sciHdr,
    text_then_flush ⟨b.title, .strv [], .strv [], .strv [], .listv [], .listv [], .listv []⟩
      .perspective rfl rfl b.perspective hP,
    show setSec ⟨b.title, .strv [], .strv [], .strv [], .listv [], .listv [], .listv []⟩
        .perspective (.strv b.perspective) =
      ⟨b.title, .strv b.perspective, .strv [], .strv [], .listv [], .listv [], .listv []⟩
      from rfl]
  rw [processLine_tradHdr,
    text_then_flush
      ⟨b.title, .strv b.perspective, .strv [], .strv [], .listv [], .listv [], .listv []⟩
      .science rfl rfl b.science hS,
    show setSec
        ⟨b.title, .strv b.perspective, .strv [], .strv [], .listv [], .listv [], .listv []⟩
        .science (.strv b.science) =
      ⟨b.title, .strv b.perspective, .strv b.science, .strv [], .listv [], .listv [],
        .listv []⟩ from rfl]
  rw [processLine_appHdr,
    text_then_flush
      ⟨b.title, .strv b.perspective, .strv b.science, .strv [], .listv [], .listv [],
        .listv []⟩ .integration rfl rfl b.integration hI,
    show setSec
        ⟨b.title, .strv b.perspective, .strv b.science, .strv [], .listv [], .listv [],
          .listv []⟩ .integration (.strv b.integration) =
      ⟨b.title, .strv b.perspective, .strv b.science, .strv b.integration, .listv [],
        .listv [], .listv []⟩ from rfl]
  rw [list_field_block
      ⟨b.title, .strv b.perspective, .strv b.science, .strv b.integration, .listv [],
        .listv [], .listv []⟩ .applications rfl b.applications hA,
    key_after_apps, listFlush_of_goodItems b.applications hA,
    show setSec
        ⟨b.title, .strv b.perspective, .strv b.science, .strv b.integration, .listv [],
          .listv [], .listv []⟩ .applications (.listv b.applications) =
      ⟨b.title, .strv b.perspective, .strv b.science, .strv b.integration,
        .listv b.applications, .listv [], .listv []⟩ from rfl]
  rw [list_field_block
      ⟨b.title, .strv b.perspective, .strv b.science, .strv b.integration,
        .listv b.applications, .listv [], .listv []⟩ .takeaways rfl b.takeaways hK,
    ref_after_takes, listFlush_of_goodItems b.takeaways hK,
    show setSec
        ⟨b.title, .strv b.perspective, .strv b.science, .strv b.integration,
          .listv b.applications, .listv [], .listv []⟩ .takeaways (.listv b.takeaways) =
      ⟨b.title, .strv b.perspective, .strv b.science, .strv b.integration,
        .listv b.applications, .listv b.takeaways, .listv []⟩ from rfl]
  rw [ref_field_block
      ⟨b.title, .strv b.perspective, .strv b.science, .strv b.integration,
        .listv b.applications, .listv b.takeaways, .listv []⟩ b.references hR]
  rw [processLine_jen, processLine_founder]
  rw [handleLast_refs_good
      ⟨b.title, .strv b.perspective, .strv b.science, .strv b.integration,
        .listv b.applications, .listv b.takeaways, .listv []⟩ b.references hR rfl,
    show setSec
        ⟨b.title, .strv b.perspective, .strv b.science, .strv b.integration,
          .listv b.applications, .listv b.takeaways, .listv []⟩ .references
        (.listv b.references) =
      ⟨b.title, .strv b.perspective, .strv b.science, .strv b.integration,
        .listv b.applications, .listv b.takeaways, .listv b.references⟩ from rfl]
  simp only [normalizeSections, normV_strv, normV_listv, ite_isEmpty_self]
  rfl


/-- C3 counterexample: the round trip is not the identity on all records
whose free-text fields merely avoid heading-like lines — a reference whose
text begins with digits loses them, because the numbered line
`"1. 2020 Smith"` is lstripped down to `"Smith"` when re-parsed. -/
theorem roundtrip_counterexample :
    parse_response
      (format_blog_post ⟨chars "T", [], [], [], [], [], [chars "2020 Smith"]⟩) =
      some ⟨chars "T", [], [], [], [], [], [chars "Smith"]⟩ ∧
    parse_response
      (format_blog_post ⟨chars "T", [], [], [], [], [], [chars "2020 Smith"]⟩) ≠
      some ⟨chars "T", [], [], [], [], [], [chars "2020 Smith"]⟩ := by
  refine ⟨by rfl, ?_⟩
  intro h
  rw [show parse_response
      (format_blog_post ⟨chars "T", [], [], [], [], [], [chars "2020 Smith"]⟩) =
      some ⟨chars "T", [], [], [], [], [], [chars "Smith"]⟩ from rfl] at h
  exact absurd (Option.some.inj h) (by decide)

/-- C3 witness: the example record of the specification round-trips. -/
theorem parse_format_roundtrip_witness :
    wfRecord ⟨chars "Breath and Calm", chars "Breathing slows the mind.",
      chars "Vagal tone increases with slow exhalation.",
      chars "Ancient and modern agree.",
      [chars "Practice 5 minutes daily"], [chars "Slow breath, calm mind"],
      [chars "Smith 2020"]⟩ ∧
    parse_response (format_blog_post
      ⟨chars "Breath and Calm", chars "Breathing slows the mind.",
        chars "Vagal tone increases with slow exhalation.",
        chars "Ancient and modern agree.",
        [chars "Practice 5 minutes daily"], [chars "Slow breath, calm mind"],
        [chars "Smith 2020"]⟩) =
      some ⟨chars "Breath and Calm", chars "Breathing slows the mind.",
        chars "Vagal tone increases with slow exhalation.",
        chars "Ancient and modern agree.",
        [chars "Practice 5 minutes daily"], [chars "Slow breath, calm mind"],
        [chars "Smith 2020"]⟩ :=
  ⟨by decide, parse_format_roundtrip _ (by decide)⟩

end App
